import Mathlib

set_option maxRecDepth 8000

/-!
Shallow embedding of `src/parser.rs` from the `lesjon/netpbm` repository.

Byte buffers are modelled as `List Nat` (each element a byte value).
Rust panics of the debug build (out-of-range slice indexing, unsigned
subtraction underflow, checked add/mul overflow, `Option::unwrap` /
`Option::expect` on `None`, and the `todo!` macro) are modelled as an
explicit `panic` outcome; returned `Err` values as `err`; a
non-terminating run of the source loop as `diverge`.
-/

namespace Netpbm

/-- Kinds of Rust (debug build) panics the parser can hit. -/
inductive PanicKind
  | sliceOutOfRange
  | subUnderflow
  | arithOverflow
  | unwrapNone
  | expectNone
  | todoUnimplemented
  deriving DecidableEq, Repr

/-- Result of a fallible-by-panic computation. -/
inductive PResult (α : Type)
  | ok : α → PResult α
  | panic : PanicKind → PResult α
  deriving DecidableEq, Repr

/-- The only `Err` value `parse` itself constructs:
`io::Error::new(ErrorKind::Unsupported, "Unkown image format!")` (parser.rs:180). -/
inductive PError
  | unsupported
  deriving DecidableEq, Repr

/-- `Image<u16>` (parser.rs:26-31); samples as `Nat` (all values fit `u16`). -/
structure Image where
  data : List Nat
  width : Nat
  height : Nat
  max_value : Nat
  deriving DecidableEq, Repr

/-- Overall outcome of `parse`: a returned `Ok(Image)`, a returned `Err`,
a process abort (panic), or non-termination of the source loop. -/
inductive POutcome
  | ok : Image → POutcome
  | err : PError → POutcome
  | panic : PanicKind → POutcome
  | diverge : POutcome
  deriving DecidableEq, Repr

/-- Result of a loop that can also fail to terminate. -/
inductive LoopRes (α : Type)
  | ok : α → LoopRes α
  | panic : PanicKind → LoopRes α
  | diverge : LoopRes α
  deriving DecidableEq, Repr

namespace magic_numbers

/-- `b"P1"` (parser.rs:16). -/
def PBM_ASCII : List Nat := [80, 49]

/-- `b"P2"` (parser.rs:17). -/
def PGM_ASCII : List Nat := [80, 50]

/-- `b"P3"` (parser.rs:18). -/
def PPM_ASCII : List Nat := [80, 51]

/-- `b"P4"` (parser.rs:19). -/
def PBM_BINARY : List Nat := [80, 52]

/-- `b"P5"` (parser.rs:20). -/
def PGM_BINARY : List Nat := [80, 53]

/-- `b"P6"` (parser.rs:21). -/
def PPM_BINARY : List Nat := [80, 54]

/-- `b"P7"` (parser.rs:22). -/
def PAM_BINARY : List Nat := [80, 55]

end magic_numbers

/-- `WHITESPACE_BYTES = b" \n\r\t"` (parser.rs:43). -/
def WHITESPACE_BYTES : List Nat := [32, 10, 13, 9]

/-- `PgmParseState` (parser.rs:34-40). -/
inductive PgmParseState
  | type
  | width
  | height
  | maxValue
  | data
  deriving DecidableEq, Repr

/-- `BytesParser` (parser.rs:45-48): the cursor over the byte buffer. -/
structure BytesParser where
  whitespace_index : Nat
  prev_whitespace_index : Nat
  deriving DecidableEq, Repr

/-- `Iterator::position(pred)` on a byte list: the index of the first
element satisfying `pred`, or `none`. -/
def position (p : Nat → Bool) : List Nat → Option Nat
  | [] => none
  | b :: rest => if p b then some 0 else (position p rest).map (· + 1)

/-- `&contents[a..b]` once `a ≤ b ≤ contents.length` is known to hold
(callers establish the bound; out-of-range uses are modelled at call sites). -/
def list_slice (contents : List Nat) (a b : Nat) : List Nat :=
  (contents.drop a).take (b - a)

/-- `BytesParser::take_line` (parser.rs:59-70).
Mirrors the source's order of effects: slicing `&contents[wi..]` panics
when `wi > len`; otherwise `prev` is set to `wi`; on a whitespace hit at
relative index `i`, `wi` becomes `wi + i + 1` and the token is
`contents[prev .. wi-1]`; with no hit `wi` is unchanged and the slice
`contents[wi .. wi-1]` panics (usize underflow when `wi = 0`, start > end
otherwise). Returns the final cursor alongside the result. -/
def take_line (bp : BytesParser) (contents : List Nat) :
    PResult (List Nat) × BytesParser :=
  if contents.length < bp.whitespace_index then
    (.panic .sliceOutOfRange, bp)
  else
    match position (fun b => WHITESPACE_BYTES.contains b)
        (contents.drop bp.whitespace_index) with
    | some i =>
        (.ok (list_slice contents bp.whitespace_index (bp.whitespace_index + i)),
         ⟨bp.whitespace_index + i + 1, bp.whitespace_index⟩)
    | none =>
        if bp.whitespace_index = 0 then
          (.panic .subUnderflow, ⟨bp.whitespace_index, bp.whitespace_index⟩)
        else
          (.panic .sliceOutOfRange, ⟨bp.whitespace_index, bp.whitespace_index⟩)

/-- `BytesParser::take_rest` (parser.rs:72-76): `prev := wi`,
`wi := contents.len()`, return `&contents[prev..]` (panics if `prev > len`). -/
def take_rest (bp : BytesParser) (contents : List Nat) :
    PResult (List Nat) × BytesParser :=
  if contents.length < bp.whitespace_index then
    (.panic .sliceOutOfRange, ⟨contents.length, bp.whitespace_index⟩)
  else
    (.ok (contents.drop bp.whitespace_index),
     ⟨contents.length, bp.whitespace_index⟩)

/-- Accumulator loop of `parse_usize` (parser.rs:79-88), debug-build
semantics: `*byte - b'0'` underflows (panics) for bytes below `'0'`;
`result *= 10` and the following `add_assign` panic on 64-bit overflow. -/
def parse_usize_go : Nat → List Nat → PResult Nat
  | result, [] => .ok result
  | result, byte :: rest =>
    if byte < 48 then .panic .subUnderflow
    else if 2 ^ 64 ≤ result * 10 then .panic .arithOverflow
    else if 2 ^ 64 ≤ result * 10 + (byte - 48) then .panic .arithOverflow
    else parse_usize_go (result * 10 + (byte - 48)) rest

/-- `parse_usize` (parser.rs:79-88). Note the source never returns `Err`. -/
def parse_usize (bytes : List Nat) : PResult Nat :=
  parse_usize_go 0 bytes

/-- Accumulator loop of `parse_u16` (parser.rs:90-99), debug-build
semantics with the 16-bit destination width. -/
def parse_u16_go : Nat → List Nat → PResult Nat
  | result, [] => .ok result
  | result, byte :: rest =>
    if byte < 48 then .panic .subUnderflow
    else if 65536 ≤ result * 10 then .panic .arithOverflow
    else if 65536 ≤ result * 10 + (byte - 48) then .panic .arithOverflow
    else parse_u16_go (result * 10 + (byte - 48)) rest

/-- `parse_u16` (parser.rs:90-99). Note the source never returns `Err`. -/
def parse_u16 (bytes : List Nat) : PResult Nat :=
  parse_u16_go 0 bytes

/-- `line.starts_with(b"#")` (parser.rs:116). -/
def starts_with_hash : List Nat → Bool
  | [] => false
  | b :: _ => b == 35

/-- The 16-bit binary-graymap body loop (parser.rs:146-155): at even
`enumerate` index push the byte; at odd index `last <<= 8` (u16 shift
wraps, it does not panic) then `*last += byte` (panics on u16 overflow in
a debug build). The `if let Some(last)` silently skips when `data` is
empty. -/
def p5_decode_16 : List Nat → Nat → List Nat → PResult (List Nat)
  | data, _, [] => .ok data
  | data, i, byte :: rest =>
    if i % 2 = 0 then p5_decode_16 (data ++ [byte]) (i + 1) rest
    else
      match data.getLast? with
      | none => p5_decode_16 data (i + 1) rest
      | some last =>
        if 65536 ≤ last * 256 % 65536 + byte then .panic .arithOverflow
        else p5_decode_16 (data.dropLast ++ [last * 256 % 65536 + byte]) (i + 1) rest

/-- The ASCII-graymap body loop (parser.rs:161-173):
`while let Ok(some) = bytes_cursor.take_line(line)` with empty tokens
skipped and each token fed to `parse_u16`. The source's `Err(_) => break`
arm is dead code because `parse_u16` only ever returns `Ok`; a panic in
`take_line` or `parse_u16` aborts. Fuel only totalizes the recursion. -/
def pgm_ascii_loop : Nat → BytesParser → List Nat → List Nat →
    LoopRes (List Nat × BytesParser)
  | 0, _, _, _ => .diverge
  | fuel + 1, bp, line, data =>
    match take_line bp line with
    | (.panic k, _) => .panic k
    | (.ok tok, bp') =>
      if tok.isEmpty then pgm_ascii_loop fuel bp' line data
      else
        match parse_u16 tok with
        | .panic k => .panic k
        | .ok v => pgm_ascii_loop fuel bp' line (data ++ [v])

/-- The three `expect` calls after the loop (parser.rs:186-188) and the
final `Ok(Image { .. })` (parser.rs:189-194). -/
def parse_finish (data : List Nat) (width height max_value : Option Nat) :
    POutcome :=
  match max_value with
  | none => .panic .expectNone
  | some mv =>
    match width with
    | none => .panic .expectNone
    | some w =>
      match height with
      | none => .panic .expectNone
      | some h => .ok ⟨data, w, h, mv⟩

/-- The local mutable state of `parse` (parser.rs:103-109). -/
structure ParseVars where
  data : List Nat
  parse_state : PgmParseState
  width : Option Nat
  height : Option Nat
  max_value : Option Nat
  pgm_type : Option (List Nat)
  bytes_cursor : BytesParser
  deriving DecidableEq, Repr

/-- One iteration of the `loop` in `parse` (parser.rs:110-184), with
`recur` standing for the next iteration. Faithful to the source:
`take_line` outside the `Data` state, `take_rest` inside it; empty lines
and `#`-led tokens are skipped; header states fill one field each; the
`Data` state dispatches on the unwrapped magic token. -/
def parse_step (recur : ParseVars → POutcome) (vars : ParseVars)
    (contents : List Nat) : POutcome :=
  match (if vars.parse_state ≠ PgmParseState.data
         then take_line vars.bytes_cursor contents
         else take_rest vars.bytes_cursor contents) with
  | (.panic k, _) => .panic k
  | (.ok line, bp) =>
    if line.isEmpty then recur { vars with bytes_cursor := bp }
    else if starts_with_hash line then recur { vars with bytes_cursor := bp }
    else
      match vars.parse_state with
      | .type =>
        recur { vars with bytes_cursor := bp, pgm_type := some line,
                          parse_state := .width }
      | .width =>
        match parse_usize line with
        | .panic k => .panic k
        | .ok w =>
          recur { vars with bytes_cursor := bp, width := some w,
                            parse_state := .height }
      | .height =>
        match parse_usize line with
        | .panic k => .panic k
        | .ok h =>
          recur { vars with bytes_cursor := bp, height := some h,
                            parse_state := .maxValue }
      | .maxValue =>
        match parse_u16 line with
        | .panic k => .panic k
        | .ok mv =>
          recur { vars with bytes_cursor := bp, max_value := some mv,
                            parse_state := .data }
      | .data =>
        match vars.pgm_type with
        | none => .panic .unwrapNone
        | some t =>
          if t = magic_numbers.PGM_BINARY then
            match vars.max_value with
            | none => .panic .unwrapNone
            | some mv =>
              if 255 < mv then
                match p5_decode_16 vars.data 0 line with
                | .panic k => .panic k
                | .ok d => parse_finish d vars.width vars.height vars.max_value
              else
                parse_finish (vars.data ++ line) vars.width vars.height
                  vars.max_value
          else if t = magic_numbers.PGM_ASCII then
            match pgm_ascii_loop (line.length + 2) bp line vars.data with
            | .diverge => .diverge
            | .panic k => .panic k
            | .ok (d, _) => parse_finish d vars.width vars.height vars.max_value
          else if t = magic_numbers.PBM_ASCII then .panic .todoUnimplemented
          else if t = magic_numbers.PBM_BINARY then .panic .todoUnimplemented
          else if t = magic_numbers.PPM_ASCII then .panic .todoUnimplemented
          else if t = magic_numbers.PPM_BINARY then .panic .todoUnimplemented
          else if t = magic_numbers.PAM_BINARY then .panic .todoUnimplemented
          else .err .unsupported

/-- The `loop` of `parse`, totalized by fuel; fuel exhaustion models
non-termination of the source loop (which can only happen once the
cursor stops advancing, i.e. in a genuinely infinite run). -/
def parseLoop : Nat → ParseVars → List Nat → POutcome
  | 0, _, _ => POutcome.diverge
  | fuel + 1, vars, contents =>
    parse_step (fun v => parseLoop fuel v contents) vars contents

/-- `parse` (parser.rs:101-195). The header loop advances the cursor by at
least one byte per iteration, so `contents.length + 4` units of fuel cover
every terminating run. -/
def parse (contents : List Nat) : POutcome :=
  parseLoop (contents.length + 4)
    ⟨[], .type, none, none, none, none, ⟨0, 0⟩⟩ contents

/-- A panic kind other than the `unwrap`/`expect` ones of the `Data`
branch and the epilogue of `parse`. -/
def benign (k : PanicKind) : Prop :=
  k ≠ PanicKind.unwrapNone ∧ k ≠ PanicKind.expectNone

/-- An outcome that is not an `unwrap`/`expect` panic. -/
def benign_outcome (o : POutcome) : Prop :=
  o ≠ POutcome.panic PanicKind.unwrapNone ∧
  o ≠ POutcome.panic PanicKind.expectNone

/-- State-machine invariant of the `parse` loop: every header field that
an already-passed state fills is `Some`. -/
def vars_inv (v : ParseVars) : Prop :=
  (v.parse_state = PgmParseState.width ∨ v.parse_state = PgmParseState.height ∨
    v.parse_state = PgmParseState.maxValue ∨ v.parse_state = PgmParseState.data →
    v.pgm_type.isSome = true) ∧
  (v.parse_state = PgmParseState.height ∨ v.parse_state = PgmParseState.maxValue ∨
    v.parse_state = PgmParseState.data → v.width.isSome = true) ∧
  (v.parse_state = PgmParseState.maxValue ∨ v.parse_state = PgmParseState.data →
    v.height.isSome = true) ∧
  (v.parse_state = PgmParseState.data → v.max_value.isSome = true)

/-- Cursor relation after one tokenizer operation on a buffer of length
`len`: both indices non-decreasing, ordered, and within the buffer. -/
def cursor_ok (old new : BytesParser) (len : Nat) : Prop :=
  old.prev_whitespace_index ≤ new.prev_whitespace_index ∧
  old.whitespace_index ≤ new.whitespace_index ∧
  new.prev_whitespace_index ≤ new.whitespace_index ∧
  new.whitespace_index ≤ len

/-- Modelled from the spec: the 16-bit binary-graymap contract pairs
consecutive remainder bytes `(hi, lo) ↦ hi*256 + lo`, in order. Used as
the comparison definition for the decoder. -/
def spec_pairs_msb : List Nat → List Nat
  | hi :: lo :: rest => (hi * 256 + lo) :: spec_pairs_msb rest
  | _ => []

/-- `"P2\n2 2\n255\n10 20 30 40\n"`: a well-formed ASCII graymap buffer. -/
def p2_plain : List Nat :=
  [80, 50, 10, 50, 32, 50, 10, 50, 53, 53, 10,
   49, 48, 32, 50, 48, 32, 51, 48, 32, 52, 48, 10]

/-- The same buffer preceded by the comment line `"# comment\n"`. -/
def p2_spaced_comment : List Nat :=
  [35, 32, 99, 111, 109, 109, 101, 110, 116, 10] ++ p2_plain

/-- The same buffer preceded by the whitespace-free comment line
`"#comment\n"`. -/
def p2_hash_comment : List Nat :=
  [35, 99, 111, 109, 109, 101, 110, 116, 10] ++ p2_plain

/-- `"P5\n2 2\n255\n"` followed by the four bytes 1,2,3,4. -/
def p5_plain : List Nat :=
  [80, 53, 10, 50, 32, 50, 10, 50, 53, 53, 10, 1, 2, 3, 4]

/-- The same binary buffer preceded by the comment line `"#c\n"`. -/
def p5_hash_comment : List Nat := [35, 99, 10] ++ p5_plain

/-- `"P5\n4 4\n255\n"`: binary-graymap header declaring 16 samples. -/
def p5_header_44 : List Nat := [80, 53, 10, 52, 32, 52, 10, 50, 53, 53, 10]

/-- `"P9\n2 2\n255\nX"`: unknown magic number. -/
def p9_input : List Nat := [80, 57, 10, 50, 32, 50, 10, 50, 53, 53, 10, 88]

/-- `"P3\n2 2\n255\n"` followed by bytes 1,2,3,4: recognized but
unimplemented magic number. -/
def p3_input : List Nat :=
  [80, 51, 10, 50, 32, 50, 10, 50, 53, 53, 10, 1, 2, 3, 4]

/-- `"P3\n1 1\n255\nX"`: recognized but unimplemented magic number. -/
def p3_input_x : List Nat := [80, 51, 10, 49, 32, 49, 10, 50, 53, 53, 10, 88]

/-- `"P2\n1 3\n255\n10 20  30\n"`: ASCII graymap whose body holds a
double space. -/
def p2_double_space : List Nat :=
  [80, 50, 10, 49, 32, 51, 10, 50, 53, 53, 10,
   49, 48, 32, 50, 48, 32, 32, 51, 48, 10]

/-- `"P2\n2 2\n"`: buffer exhausted after three header fields. -/
def p2_exhausted : List Nat := [80, 50, 10, 50, 32, 50, 10]

/-- `"P2\n"`: buffer exhausted after the magic number. -/
def p2_exhausted_short : List Nat := [80, 50, 10]

/-- `"P5\n2 2\n65535\n"` followed by the bytes 0x01 0x02 0x00 0xFF. -/
def p5_16bit_input : List Nat :=
  [80, 53, 10, 50, 32, 50, 10, 54, 53, 53, 51, 53, 10, 1, 2, 0, 255]

/-- Unfolding equation for `parseLoop` at a successor fuel value. -/
theorem parseLoop_succ (fuel : Nat) (vars : ParseVars) (contents : List Nat) :
    parseLoop (fuel + 1) vars contents =
      parse_step (fun v => parseLoop fuel v contents) vars contents := rfl

/-- A hit reported by `position` lies inside the list. -/
theorem position_some_lt {p : Nat → Bool} :
    ∀ {l : List Nat} {i : Nat}, position p l = some i → i < l.length := by
  intro l
  induction l with
  | nil => intro i h; simp [position] at h
  | cons b rest ih =>
    intro i h
    unfold position at h
    split at h
    · cases h; simp
    · simp only [Option.map_eq_some'] at h
      obtain ⟨j, hj, rfl⟩ := h
      have := ih hj
      simp only [List.length_cons]
      omega

/-- More fuel does not change a terminating run of the `parse` loop. -/
theorem parseLoop_mono : ∀ (f g : Nat) (vars : ParseVars) (contents : List Nat),
    f ≤ g → parseLoop f vars contents ≠ POutcome.diverge →
    parseLoop g vars contents = parseLoop f vars contents := by
  intro f
  induction f with
  | zero => intro g vars contents _ h; exact absurd rfl h
  | succ f ih =>
    intro g vars contents hle
    obtain ⟨g', rfl⟩ : ∃ g', g = g' + 1 := ⟨g - 1, by omega⟩
    have hle' : f ≤ g' := by omega
    rw [parseLoop_succ, parseLoop_succ]
    unfold parse_step
    repeat' split
    all_goals
      first
      | exact fun _ => rfl
      | exact fun h => absurd rfl h
      | exact ih g' _ contents hle'

/-- `take_line` can only panic with a slice or subtraction panic. -/
theorem take_line_benign (bp : BytesParser) (c : List Nat) (k : PanicKind)
    (h : (take_line bp c).1 = PResult.panic k) : benign k := by
  unfold take_line at h
  split at h
  · simp only at h; cases h; exact ⟨by decide, by decide⟩
  · split at h
    · simp at h
    · split at h <;> (simp only at h; cases h; exact ⟨by decide, by decide⟩)

/-- `take_rest` can only panic with a slice panic. -/
theorem take_rest_benign (bp : BytesParser) (c : List Nat) (k : PanicKind)
    (h : (take_rest bp c).1 = PResult.panic k) : benign k := by
  unfold take_rest at h
  split at h
  · simp only at h; cases h; exact ⟨by decide, by decide⟩
  · simp at h

/-- The numeric readers can only panic with arithmetic panics. -/
theorem parse_usize_go_benign :
    ∀ (bytes : List Nat) (acc : Nat) (k : PanicKind),
      parse_usize_go acc bytes = PResult.panic k → benign k := by
  intro bytes
  induction bytes with
  | nil => intro acc k h; simp [parse_usize_go] at h
  | cons b rest ih =>
    intro acc k h
    unfold parse_usize_go at h
    split at h
    · cases h; exact ⟨by decide, by decide⟩
    · split at h
      · cases h; exact ⟨by decide, by decide⟩
      · split at h
        · cases h; exact ⟨by decide, by decide⟩
        · exact ih _ _ h

/-- The 16-bit numeric reader can only panic with arithmetic panics. -/
theorem parse_u16_go_benign :
    ∀ (bytes : List Nat) (acc : Nat) (k : PanicKind),
      parse_u16_go acc bytes = PResult.panic k → benign k := by
  intro bytes
  induction bytes with
  | nil => intro acc k h; simp [parse_u16_go] at h
  | cons b rest ih =>
    intro acc k h
    unfold parse_u16_go at h
    split at h
    · cases h; exact ⟨by decide, by decide⟩
    · split at h
      · cases h; exact ⟨by decide, by decide⟩
      · split at h
        · cases h; exact ⟨by decide, by decide⟩
        · exact ih _ _ h

/-- The 16-bit binary decoder can only panic with an overflow panic. -/
theorem p5_decode_16_benign :
    ∀ (line data : List Nat) (i : Nat) (k : PanicKind),
      p5_decode_16 data i line = PResult.panic k → benign k := by
  intro line
  induction line with
  | nil => intro data i k h; simp [p5_decode_16] at h
  | cons b rest ih =>
    intro data i k h
    unfold p5_decode_16 at h
    split at h
    · exact ih _ _ _ h
    · split at h
      · exact ih _ _ _ h
      · split at h
        · cases h; exact ⟨by decide, by decide⟩
        · exact ih _ _ _ h

/-- The ASCII body loop can only panic with slice or arithmetic panics. -/
theorem pgm_ascii_loop_benign :
    ∀ (fuel : Nat) (bp : BytesParser) (line data : List Nat) (k : PanicKind),
      pgm_ascii_loop fuel bp line data = LoopRes.panic k → benign k := by
  intro fuel
  induction fuel with
  | zero => intro bp line data k h; simp [pgm_ascii_loop] at h
  | succ f ih =>
    intro bp line data k h
    unfold pgm_ascii_loop at h
    split at h
    · next heq =>
      cases h
      exact take_line_benign bp line _ (by rw [heq])
    · split at h
      · exact ih _ _ _ _ h
      · split at h
        · next heq =>
          cases h
          exact parse_u16_go_benign _ _ _ heq
        · exact ih _ _ _ _ h

/-- `parse_finish` with all three fields present returns `ok`. -/
theorem parse_finish_benign (d : List Nat) (w h mv : Option Nat)
    (hw : w.isSome = true) (hh : h.isSome = true) (hmv : mv.isSome = true) :
    benign_outcome (parse_finish d w h mv) := by
  obtain ⟨w', rfl⟩ := Option.isSome_iff_exists.mp hw
  obtain ⟨h', rfl⟩ := Option.isSome_iff_exists.mp hh
  obtain ⟨mv', rfl⟩ := Option.isSome_iff_exists.mp hmv
  simp [parse_finish, benign_outcome]

/-- A benign panic kind gives a benign outcome. -/
theorem benign_outcome_panic (k : PanicKind) (h : benign k) :
    benign_outcome (POutcome.panic k) := by
  obtain ⟨h1, h2⟩ := h
  exact ⟨by simp [h1], by simp [h2]⟩

/-- Every iteration of the `parse` loop body preserves the header-field
invariant and never produces an `unwrap`/`expect` panic itself. -/
theorem parse_step_benign (r : ParseVars → POutcome) (v : ParseVars)
    (c : List Nat) (hv : vars_inv v)
    (hr : ∀ v', vars_inv v' → benign_outcome (r v')) :
    benign_outcome (parse_step r v c) := by
  obtain ⟨i1, i2, i3, i4⟩ := hv
  unfold parse_step
  rcases htk : (if v.parse_state ≠ PgmParseState.data
      then take_line v.bytes_cursor c
      else take_rest v.bytes_cursor c) with ⟨res, bp⟩
  have hben : ∀ k, res = PResult.panic k → benign k := by
    intro k hk
    subst hk
    split at htk
    · exact take_line_benign _ _ _ (by rw [htk])
    · exact take_rest_benign _ _ _ (by rw [htk])
  rcases res with line | k
  · dsimp only
    by_cases hemp : line.isEmpty = true
    · rw [if_pos hemp]
      exact hr _ ⟨i1, i2, i3, i4⟩
    · rw [if_neg hemp]
      by_cases hhash : starts_with_hash line = true
      · rw [if_pos hhash]
        exact hr _ ⟨i1, i2, i3, i4⟩
      · rw [if_neg hhash]
        cases hst : v.parse_state with
        | type =>
          exact hr _ ⟨fun _ => rfl, fun h => by simp at h,
            fun h => by simp at h, fun h => by simp at h⟩
        | width =>
          dsimp only
          rcases hw : parse_usize line with w | k
          · exact hr _ ⟨fun _ => i1 (by simp [hst]), fun _ => rfl,
              fun h => by simp at h, fun h => by simp at h⟩
          · exact benign_outcome_panic _ (parse_usize_go_benign _ _ _ hw)
        | height =>
          dsimp only
          rcases hh : parse_usize line with h' | k
          · exact hr _ ⟨fun _ => i1 (by simp [hst]), fun _ => i2 (by simp [hst]),
              fun _ => rfl, fun h => by simp at h⟩
          · exact benign_outcome_panic _ (parse_usize_go_benign _ _ _ hh)
        | maxValue =>
          dsimp only
          rcases hm : parse_u16 line with mv | k
          · exact hr _ ⟨fun _ => i1 (by simp [hst]), fun _ => i2 (by simp [hst]),
              fun _ => i3 (by simp [hst]), fun _ => rfl⟩
          · exact benign_outcome_panic _ (parse_u16_go_benign _ _ _ hm)
        | data =>
          dsimp only
          rcases hpt : v.pgm_type with _ | t
          · exact absurd (i1 (by simp [hst])) (by simp [hpt])
          · dsimp only
            by_cases h5 : t = magic_numbers.PGM_BINARY
            · rw [if_pos h5]
              rcases hmv : v.max_value with _ | mv
              · exact absurd (i4 hst) (by simp [hmv])
              · dsimp only
                by_cases hbig : 255 < mv
                · rw [if_pos hbig]
                  rcases hdec : p5_decode_16 v.data 0 line with d | k
                  · exact parse_finish_benign _ _ _ _ (i2 (by simp [hst]))
                      (i3 (by simp [hst])) rfl
                  · exact benign_outcome_panic _ (p5_decode_16_benign _ _ _ _ hdec)
                · rw [if_neg hbig]
                  exact parse_finish_benign _ _ _ _ (i2 (by simp [hst]))
                    (i3 (by simp [hst])) rfl
            · rw [if_neg h5]
              by_cases h2 : t = magic_numbers.PGM_ASCII
              · rw [if_pos h2]
                rcases hal : pgm_ascii_loop (line.length + 2) bp line v.data
                  with ⟨d, bp2⟩ | k | _
                · exact parse_finish_benign _ _ _ _ (i2 (by simp [hst]))
                    (i3 (by simp [hst])) (i4 hst)
                · exact benign_outcome_panic _ (pgm_ascii_loop_benign _ _ _ _ _ hal)
                · exact ⟨by simp, by simp⟩
              · rw [if_neg h2]
                by_cases h1 : t = magic_numbers.PBM_ASCII
                · rw [if_pos h1]; exact ⟨by simp, by simp⟩
                · rw [if_neg h1]
                  by_cases h4 : t = magic_numbers.PBM_BINARY
                  · rw [if_pos h4]; exact ⟨by simp, by simp⟩
                  · rw [if_neg h4]
                    by_cases h3 : t = magic_numbers.PPM_ASCII
                    · rw [if_pos h3]; exact ⟨by simp, by simp⟩
                    · rw [if_neg h3]
                      by_cases h6 : t = magic_numbers.PPM_BINARY
                      · rw [if_pos h6]; exact ⟨by simp, by simp⟩
                      · rw [if_neg h6]
                        by_cases h7 : t = magic_numbers.PAM_BINARY
                        · rw [if_pos h7]; exact ⟨by simp, by simp⟩
                        · rw [if_neg h7]; exact ⟨by simp, by simp⟩
  · exact benign_outcome_panic _ (hben k rfl)

/-- The `parse` loop never produces an `unwrap`/`expect` panic from an
invariant-satisfying state. -/
theorem parseLoop_benign :
    ∀ (fuel : Nat) (v : ParseVars) (c : List Nat),
      vars_inv v → benign_outcome (parseLoop fuel v c) := by
  intro fuel
  induction fuel with
  | zero => intro v c _; exact ⟨by simp [parseLoop], by simp [parseLoop]⟩
  | succ f ih =>
    intro v c hv
    rw [parseLoop_succ]
    exact parse_step_benign _ v c hv (fun v' hv' => ih v' c hv')

/-- Claim C9: after a tokenizer operation (`take_line` or `take_rest`)
started from a cursor satisfying `prev ≤ pos ≤ buffer.length`, the
resulting cursor still satisfies it and both indices are non-decreasing:
the cursor is never rewound. -/
theorem cursor_invariant (bp : BytesParser) (c : List Nat)
    (h1 : bp.prev_whitespace_index ≤ bp.whitespace_index)
    (h2 : bp.whitespace_index ≤ c.length) :
    cursor_ok bp (take_line bp c).2 c.length ∧
    cursor_ok bp (take_rest bp c).2 c.length := by
  constructor
  · unfold take_line
    rw [if_neg (by omega)]
    rcases hpos : position (fun b => WHITESPACE_BYTES.contains b)
        (c.drop bp.whitespace_index) with _ | i
    · by_cases h0 : bp.whitespace_index = 0
      · rw [if_pos h0]
        exact ⟨h1, le_refl _, le_refl _, h2⟩
      · rw [if_neg h0]
        exact ⟨h1, le_refl _, le_refl _, h2⟩
    · have hi := position_some_lt hpos
      simp only [List.length_drop] at hi
      exact ⟨h1, by dsimp only; omega, by dsimp only; omega,
        by dsimp only; omega⟩
  · unfold take_rest
    rw [if_neg (by omega)]
    exact ⟨h1, h2, h2, le_refl _⟩

/-- Witness for C9 at the buffer `"2 "` with a fresh cursor. -/
theorem cursor_invariant_witness :
    cursor_ok ⟨0, 0⟩ (take_line ⟨0, 0⟩ [50, 32]).2 2 ∧
    cursor_ok ⟨0, 0⟩ (take_rest ⟨0, 0⟩ [50, 32]).2 2 :=
  cursor_invariant ⟨0, 0⟩ [50, 32] (by decide) (by decide)

/-- Claim C5 (code bug): when no whitespace byte occurs from the cursor
to the end of the buffer, `take_line` does not return the token spanning
to the buffer end as the spec states; it panics (usize underflow of
`whitespace_index - 1` at cursor 0, out-of-range slice otherwise), and
the cursor is left at `(wi, wi)` rather than the buffer end. -/
theorem take_line_no_whitespace_panics :
    take_line ⟨0, 0⟩ [65, 66] = (PResult.panic PanicKind.subUnderflow, ⟨0, 0⟩) ∧
    take_line ⟨3, 1⟩ [65, 66, 67, 68, 69] =
      (PResult.panic PanicKind.sliceOutOfRange, ⟨3, 3⟩) := by decide

/-- Counterexample for C6: for the buffer `"P2\n2 2\n"`, exhausted after
three header fields, `parse` aborts with a slice panic; it does not
return an `IncompleteHeader` error (no such error exists in the code). -/
theorem exhausted_header_counterexample :
    parse p2_exhausted = POutcome.panic PanicKind.sliceOutOfRange := by decide

/-- Claim C6 as amended: when the buffer is exhausted before the `Data`
state (the cursor sits at the buffer end and the buffer is non-empty),
`take_line` panics with an out-of-range slice, so `parse` aborts instead
of returning an `IncompleteHeader` error; in particular on `"P2\n"`. -/
theorem exhausted_header_amended :
    (∀ (bp : BytesParser) (c : List Nat),
      bp.whitespace_index = c.length → 0 < c.length →
      (take_line bp c).1 = PResult.panic PanicKind.sliceOutOfRange) ∧
    parse p2_exhausted_short = POutcome.panic PanicKind.sliceOutOfRange := by
  constructor
  · intro bp c hwi h0
    unfold take_line
    rw [if_neg (by omega)]
    rw [hwi, List.drop_length]
    rw [show position (fun b => WHITESPACE_BYTES.contains b) [] = none from rfl]
    rw [if_neg (by omega)]
  · decide

/-- Witness for the amended C6 at the buffer `"P2\n"` with the cursor at
its end. -/
theorem exhausted_header_amended_witness :
    (take_line ⟨3, 0⟩ [80, 50, 10]).1 = PResult.panic PanicKind.sliceOutOfRange ∧
    parse p2_exhausted_short = POutcome.panic PanicKind.sliceOutOfRange :=
  ⟨exhausted_header_amended.1 ⟨3, 0⟩ [80, 50, 10] rfl (by decide),
   exhausted_header_amended.2⟩

/-- Counterexample for C1: with the comment line `"# comment\n"` of the
claim, `parse` returns an `Unsupported` error (the word `comment` is
consumed as the magic-number token), while the comment-free buffer
panics inside the ASCII body decoder; the two parses do not return
identical Images — neither returns an Image at all. -/
theorem comment_skip_counterexample :
    parse p2_spaced_comment = POutcome.err PError.unsupported ∧
    parse p2_plain = POutcome.panic PanicKind.sliceOutOfRange := by decide

/-- Claim C1 as amended: only the single whitespace-delimited token
starting with `#` is skipped. A whitespace-free comment line
(`"#comment\n"`, `"#c\n"`) leaves the parse outcome identical to the
comment-free buffer (shown both on a P5 buffer, where parsing succeeds
with the same Image, and on the claim's P2 buffer); the claim's
`"# comment\n"` instead shifts the header and yields an `Unsupported`
error. -/
theorem comment_skip_amended :
    parse p5_hash_comment = parse p5_plain ∧
    parse p5_hash_comment = POutcome.ok ⟨[1, 2, 3, 4], 2, 2, 255⟩ ∧
    parse p2_hash_comment = parse p2_plain ∧
    parse p2_spaced_comment = POutcome.err PError.unsupported := by decide

/-- Counterexample for C2: a P5 buffer declaring width=4, height=4,
max_value=255 with a 2-byte body parses successfully into an Image with
only 2 samples; no `TruncatedData` failure occurs. -/
theorem truncated_counterexample :
    parse (p5_header_44 ++ [65, 66]) =
      POutcome.ok ⟨[65, 66], 4, 4, 255⟩ := by decide

/-- Claim C2 as amended: for the `"P5\n4 4\n255\n"` header and any
non-empty body shorter than 16 bytes (not starting with `#`, which the
loop would treat as a comment), `parse` returns `Ok` with one sample per
available byte — an Image shorter than width*height — rather than a
`TruncatedData` error, which does not exist in the code. -/
theorem truncated_amended (hd : Nat) (tl : List Nat) (hhash : hd ≠ 35)
    (_hshort : (hd :: tl).length < 16) :
    parse (p5_header_44 ++ hd :: tl) = POutcome.ok ⟨hd :: tl, 4, 4, 255⟩ := by
  have hbeq : (hd == 35) = false := beq_eq_false_iff_ne.mpr hhash
  have hlen : ([80, 53, 10, 52, 32, 52, 10, 50, 53, 53, 10] ++ hd :: tl).length
      = 12 + tl.length := by simp; omega
  have h6 : parseLoop 6 ⟨[], .type, none, none, none, none, ⟨0, 0⟩⟩
      (p5_header_44 ++ hd :: tl) = POutcome.ok ⟨hd :: tl, 4, 4, 255⟩ := by
    show parseLoop 2 ⟨[], .data, some 4, some 4, some 255, some [80, 53], ⟨11, 7⟩⟩
      (p5_header_44 ++ hd :: tl) = _
    rw [show (2 : Nat) = 1 + 1 from rfl, parseLoop_succ]
    unfold parse_step
    simp only [take_rest, p5_header_44, hlen]
    rw [if_neg (show ¬(12 + tl.length < 11) by omega)]
    simp [starts_with_hash, hbeq, magic_numbers.PGM_BINARY, parse_finish,
      show List.drop 11 ([80, 53, 10, 52, 32, 52, 10, 50, 53, 53, 10] ++ hd :: tl)
        = hd :: tl from rfl]
  show parseLoop ((p5_header_44 ++ hd :: tl).length + 4)
      ⟨[], .type, none, none, none, none, ⟨0, 0⟩⟩ (p5_header_44 ++ hd :: tl) = _
  rw [parseLoop_mono 6 ((p5_header_44 ++ hd :: tl).length + 4) _ _
        (by simp [p5_header_44]) (by rw [h6]; simp), h6]

/-- Witness for the amended C2 with the 2-byte body `"AB"`. -/
theorem truncated_amended_witness :
    parse (p5_header_44 ++ 65 :: [66]) = POutcome.ok ⟨65 :: [66], 4, 4, 255⟩ :=
  truncated_amended 65 [66] (by decide) (by decide)

/-- Counterexample for C3: for a recognized but unimplemented magic
number (`"P3"`), `parse` aborts via the `todo!` macro; it does not
return a `NotImplemented` failure to the caller. -/
theorem magic_dispatch_counterexample :
    parse p3_input_x = POutcome.panic PanicKind.todoUnimplemented := by decide

/-- Claim C3 as amended: an unrecognized magic number (`"P9"`) makes
`parse` return the `Unsupported` error to the caller, but a recognized
yet unimplemented magic number (`"P3"`) aborts the process via `todo!`
instead of returning a `NotImplemented` failure. -/
theorem magic_dispatch_amended :
    parse p9_input = POutcome.err PError.unsupported ∧
    parse p3_input = POutcome.panic PanicKind.todoUnimplemented := by decide

/-- Claim C4 (code bug): for the ASCII body `"10 20  30\n"` the code
never returns the samples [10, 20, 30]; the ASCII loop calls `take_line`
on the remainder slice while the cursor still holds full-buffer indices,
so the very first tokenization panics with an out-of-range slice. -/
theorem ascii_body_panics :
    parse p2_double_space = POutcome.panic PanicKind.sliceOutOfRange := by decide

/-- The 16-bit decoder started at an even index with in-range bytes and
an even-length remainder appends exactly the most-significant-first byte
pairs. -/
theorem p5_pairs_go :
    ∀ (rem acc : List Nat) (i : Nat),
      (∀ b ∈ rem, b < 256) → rem.length % 2 = 0 → i % 2 = 0 →
      p5_decode_16 acc i rem = PResult.ok (acc ++ spec_pairs_msb rem)
  | [], acc, i, _, _, _ => by simp [p5_decode_16, spec_pairs_msb]
  | [b], acc, i, _, hev, _ => by simp at hev
  | hi :: lo :: rest, acc, i, h256, hev, hie => by
    have hhi : hi < 256 := h256 hi (by simp)
    have hlo : lo < 256 := h256 lo (by simp)
    have h2 : (i + 1) % 2 = 1 := by omega
    have hrec := p5_pairs_go rest (acc ++ [hi * 256 + lo]) (i + 1 + 1)
      (fun b hb => h256 b (by simp [hb])) (by simp at hev; omega) (by omega)
    rw [p5_decode_16, if_pos hie, p5_decode_16]
    rw [if_neg (by omega : ¬((i + 1) % 2 = 0))]
    rw [List.getLast?_concat]
    dsimp only
    rw [Nat.mod_eq_of_lt (by omega : hi * 256 < 65536)]
    rw [if_neg (by omega : ¬(65536 ≤ hi * 256 + lo))]
    rw [List.dropLast_concat]
    rw [hrec]
    simp [spec_pairs_msb]


/-- Claim C7: for a binary graymap with `max_value > 255`, the decoder
forms each sample from two consecutive remainder bytes, most-significant
byte first, `hi*256 + lo`, for every pair in order (shown for every
even-length byte remainder); in particular the P5 input with
`max_value = 65535` and body bytes 0x01 0x02 0x00 0xFF parses to the
samples [258, 255]. -/
theorem p5_16bit_pairs :
    (∀ rem : List Nat, (∀ b ∈ rem, b < 256) → rem.length % 2 = 0 →
      p5_decode_16 [] 0 rem = PResult.ok (spec_pairs_msb rem)) ∧
    parse p5_16bit_input = POutcome.ok ⟨[258, 255], 2, 2, 65535⟩ := by
  constructor
  · intro rem h256 hev
    have := p5_pairs_go rem [] 0 h256 hev rfl
    simpa using this
  · decide

/-- Witness for C7 at the remainder bytes 0x01 0x02 0x00 0xFF. -/
theorem p5_16bit_pairs_witness :
    p5_decode_16 [] 0 [1, 2, 0, 255] =
      PResult.ok (spec_pairs_msb [1, 2, 0, 255]) :=
  p5_16bit_pairs.1 [1, 2, 0, 255] (by decide) (by decide)

/-- Claim C8: `parse` is a pure, stateless function of its input buffer:
two invocations on the same buffer yield identical results. -/
theorem parse_deterministic (c : List Nat) (r1 r2 : POutcome)
    (h1 : parse c = r1) (h2 : parse c = r2) : r1 = r2 :=
  h1.symm.trans h2

/-- Witness for C8 at the `"P9..."` buffer. -/
theorem parse_deterministic_witness :
    POutcome.err PError.unsupported = POutcome.err PError.unsupported :=
  parse_deterministic p9_input (POutcome.err PError.unsupported)
    (POutcome.err PError.unsupported) (by decide) (by decide)

/-- Claim C10: on every input on which the state machine reaches the
`Data` state, the magic token, width, height and max_value were all set
by the earlier states, so the `unwrap` calls of the `Data` branch and
the `expect` calls after the loop never panic — `parse` never produces
an `unwrap`/`expect` panic on any input. -/
theorem data_state_unwraps_safe (c : List Nat) :
    parse c ≠ POutcome.panic PanicKind.unwrapNone ∧
    parse c ≠ POutcome.panic PanicKind.expectNone :=
  parseLoop_benign (c.length + 4) ⟨[], .type, none, none, none, none, ⟨0, 0⟩⟩ c
    ⟨fun h => by simp at h, fun h => by simp at h,
     fun h => by simp at h, fun h => by simp at h⟩

end Netpbm

